import Mathlib

/-!
Verification model of the Distributed ID Allocator.

The repository splits the allocator into a native core (the
`distributed-id-allocator` / `wasm-id-allocator` crates, not present under
`src/`) and a thin TypeScript adapter (`IdCompressor` in
`typescript-id-allocator`, present in `src/unnamed/part_000`).

The TypeScript adapter is embedded faithfully from the source.  The native
core (cluster table, finalizer, normalizer, range buffer, serializer) is
modelled from the specification, as marked on each definition.

Conventions of the embedding:
* `StableId` / `SessionId` values are represented by their numeric UUID
  value, a `Nat` (the spec treats a stable id as a 122-bit integer and all
  id arithmetic as ordinary addition on that integer).
* Compressed ids (session space and op space) are `Int`: negative values
  are local ids `-genCount`, nonnegative values are final ids.
* The TypeScript `assert`/`fail` calls, which throw, are modelled with
  `Except String`; a thrown assertion corresponds to `Except.error` and in
  particular produces no successor state.
* The wasm boundary returns `NaN` to signal an error from `normalize_*`
  and `undefined` from `decompress` / `recompress`; both are modelled as
  `Option.none` handed to the TypeScript layer.
-/

/-- A cluster of the cluster table.  Modelled from the spec:
`{ session: SessionIndex, firstGenCount, capacity, count, baseFinal }`,
covering GenCounts `[firstGenCount, firstGenCount+count)` and FinalIds
`[baseFinal, baseFinal+count)`. -/
structure Cluster where
  session : Nat
  firstGenCount : Nat
  capacity : Nat
  count : Nat
  baseFinal : Nat
deriving DecidableEq, Repr

/-- Core compressor state.  Modelled from the spec:
`CompressorState = { localSession, nextLocalGenCount, lastTakenGenCount,
clusterCapacityPolicy, clusters, sessions, nextFinal }`.  `sessions` interns
session ids: the entry at a `SessionIndex` is that session's base stable id.
`clusters` is kept in `baseFinal` (allocation) order; the per-session view
is obtained by filtering. -/
structure CoreState where
  sessions : List Nat
  localSession : Nat
  nextLocalGenCount : Nat
  lastTakenGenCount : Nat
  clusterCapacityPolicy : Nat
  clusters : List Cluster
  nextFinal : Nat
deriving DecidableEq, Repr

/-- Modelled from the spec: the default cluster capacity reported by the
core (`WasmIdCompressor.get_default_cluster_capacity()`); the exact value
is not recorded in the spec and no claim depends on it. -/
def defaultClusterCapacity : Nat := 512

/-- Modelled from the spec: a fresh compressor for the given session id.
The local session is interned at index 0; no ids minted, nothing taken,
no clusters, final space starts at 0. -/
def coreCreate (sid : Nat) : CoreState :=
  { sessions := [sid]
    localSession := 0
    nextLocalGenCount := 0
    lastTakenGenCount := 0
    clusterCapacityPolicy := defaultClusterCapacity
    clusters := []
    nextFinal := 0 }

/-- Modelled from the spec: `internSession` — return the existing index of
`sid` or assign the next free index. -/
def coreGetToken (s : CoreState) (sid : Nat) : Nat × CoreState :=
  match s.sessions.indexOf? sid with
  | some i => (i, s)
  | none => (s.sessions.length, { s with sessions := s.sessions ++ [sid] })

/-- The clusters of one session, in allocation order (which for a single
session is also `firstGenCount` order). -/
def sessionClusters (s : CoreState) (idx : Nat) : List Cluster :=
  s.clusters.filter (fun c => c.session = idx)

/-- The active cluster of a session: the last cluster in its per-session
list. -/
def activeCluster (s : CoreState) (idx : Nat) : Option Cluster :=
  (sessionClusters s idx).getLast?

/-- Rightmost element of the list whose key is `≤ v` — the result of the
spec's binary search over a list sorted by `key`. -/
def lastLE (key : Cluster → Nat) (v : Nat) : List Cluster → Option Cluster
  | [] => none
  | c :: rest =>
    match lastLE key v rest with
    | some c₂ => some c₂
    | none => if key c ≤ v then some c else none

/-- Modelled from the spec: `findByFinal(f)` — rightmost cluster with
`baseFinal ≤ f`, confirmed by `f < baseFinal + count`. -/
def findByFinal (s : CoreState) (f : Nat) : Option Cluster :=
  (lastLE (fun c => c.baseFinal) f s.clusters).bind fun c =>
    if f < c.baseFinal + c.count then some c else none

/-- Modelled from the spec: `findBySessionGen(s, g)` — rightmost cluster of
the session with `firstGenCount ≤ g`, confirmed by
`g < firstGenCount + count`. -/
def findBySessionGen (s : CoreState) (idx : Nat) (g : Nat) : Option Cluster :=
  (lastLE (fun c => c.firstGenCount) g (sessionClusters s idx)).bind fun c =>
    if g < c.firstGenCount + c.count then some c else none

/-- The final id a cluster assigns to GenCount `g` (valid when the cluster
covers `g`): `baseFinal + (g - firstGenCount)`. -/
def clusterFinal (c : Cluster) (g : Nat) : Int :=
  (c.baseFinal : Int) + ((g - c.firstGenCount : Nat) : Int)

/-- Modelled from the spec: `generate()` — `g ← ++nextLocalGenCount`; if the
local session's active cluster already covers `g`, return its final id,
otherwise return `-g`. -/
def coreGenerateNextId (s : CoreState) : Int × CoreState :=
  let g := s.nextLocalGenCount + 1
  let s₂ := { s with nextLocalGenCount := g }
  match activeCluster s s.localSession with
  | some c =>
    if c.firstGenCount ≤ g ∧ g < c.firstGenCount + c.count then
      (clusterFinal c g, s₂)
    else (-(g : Int), s₂)
  | none => (-(g : Int), s₂)

/-- Modelled from the spec: `takeNextRange()` of the range buffer
`[lastTakenGenCount+1, nextLocalGenCount]` — `none` when the buffer is
empty, otherwise the pair `(first_local_gen_count, count)`, advancing
`lastTakenGenCount` to `nextLocalGenCount`. -/
def coreTakeNextRange (s : CoreState) : Option (Nat × Nat) × CoreState :=
  if s.nextLocalGenCount ≤ s.lastTakenGenCount then (none, s)
  else ((s.lastTakenGenCount + 1, s.nextLocalGenCount - s.lastTakenGenCount),
        { s with lastTakenGenCount := s.nextLocalGenCount })

/-- Increment the `count` of the first cluster of `token` in the list by
`cnt`, leaving everything else unchanged. -/
def bumpFirstOf (token cnt : Nat) : List Cluster → List Cluster
  | [] => []
  | c :: rest =>
    if c.session = token then { c with count := c.count + cnt } :: rest
    else c :: bumpFirstOf token cnt rest

/-- Increment the `count` of the session's active (last) cluster by `cnt`. -/
def extendActive (cs : List Cluster) (token cnt : Nat) : List Cluster :=
  (bumpFirstOf token cnt cs.reverse).reverse

/-- Allocate a new cluster for `token` at `firstGenCount` with `cnt`
finalized ids: capacity is `max(clusterCapacityPolicy, cnt)`, the base is
`nextFinal`, and `nextFinal` advances by the capacity. -/
def allocCluster (s : CoreState) (token firstGenCount cnt : Nat) : CoreState :=
  let cap := max s.clusterCapacityPolicy cnt
  { s with
    clusters := s.clusters ++ [⟨token, firstGenCount, cap, cnt, s.nextFinal⟩]
    nextFinal := s.nextFinal + cap }

/-- Modelled from the spec: the finalizer (§4.5).  A nonpositive count is
rejected (`count = 0 is rejected (ProtocolError)`); a range that is not
contiguous with the session's active cluster is rejected; the active
cluster is extended in place when it has room and still abuts `nextFinal`,
otherwise a new cluster is allocated. -/
def coreFinalizeRange (s : CoreState) (token firstGenCount : Nat) (count : Int) :
    Except String CoreState :=
  if count < 1 then .error "ProtocolError: range count must be positive"
  else
    let cnt := count.toNat
    match activeCluster s token with
    | some active =>
      if active.firstGenCount + active.count ≠ firstGenCount then
        .error "ProtocolError: ranges finalized out of order"
      else if active.count + cnt ≤ active.capacity ∧
              active.baseFinal + active.capacity = s.nextFinal then
        .ok { s with clusters := extendActive s.clusters token cnt }
      else .ok (allocCluster s token firstGenCount cnt)
    | none => .ok (allocCluster s token firstGenCount cnt)

/-- Modelled from the spec: `toOpSpace(id)` (§4.6).  Nonnegative ids are
already final; a negative local id is replaced by its final id when its
GenCount is finalized, and returned unchanged otherwise.  This operation
never fails, but the wasm boundary still reports it as number-or-NaN, hence
the `Option`. -/
def coreNormalizeToOpSpace (s : CoreState) (id : Int) : Option Int :=
  if 0 ≤ id then some id
  else
    let g := (-id).toNat
    match findBySessionGen s s.localSession g with
    | some c => some (clusterFinal c g)
    | none => some id

/-- Modelled from the spec: `toSessionSpace(id, originSession)` (§4.6).
A final id must be present in the cluster table (else `UnknownId`, i.e.
`none`) and is returned unchanged; a local id of the origin session is
replaced by its final id when finalized, returned unchanged when the origin
is the local session, and rejected (`UnfinalizedForeignId`, i.e. `none`)
otherwise. -/
def coreNormalizeToSessionSpace (s : CoreState) (id : Int) (originToken : Nat) :
    Option Int :=
  if 0 ≤ id then
    match findByFinal s id.toNat with
    | some _ => some id
    | none => none
  else
    let g := (-id).toNat
    match findBySessionGen s originToken g with
    | some c => some (clusterFinal c g)
    | none => if originToken = s.localSession then some id else none

/-- Modelled from the spec: `decompress(id)` (§4.6).  A negative id maps to
`sessionBase(localSession) + (-id - 1)`; a final id maps through its
covering cluster; unknown final ids yield `none`. -/
def coreDecompress (s : CoreState) (id : Int) : Option Nat :=
  if id < 0 then
    (s.sessions.get? s.localSession).map fun base => base + ((-id).toNat - 1)
  else
    (findByFinal s id.toNat).bind fun c =>
      (s.sessions.get? c.session).map fun base =>
        base + (c.firstGenCount - 1 + (id.toNat - c.baseFinal))

/-- The highest known GenCount of a session: for the local session the mint
counter, for a remote session the sum of its clusters' counts. -/
def maxGenCountOf (s : CoreState) (idx : Nat) : Nat :=
  if idx = s.localSession then s.nextLocalGenCount
  else ((sessionClusters s idx).map (fun c => c.count)).sum

/-- Modelled from the spec: `recompress(stable)` (§4.6).  Find the session
whose minted block `[sessionBase, sessionBase + maxGenCount)` contains the
stable id; a local id comes back in session-space form (final when covered,
else `-g`), a remote id must be finalized in some cluster. -/
def coreRecompress (s : CoreState) (stable : Nat) : Option Int :=
  match s.sessions.findIdx? (fun base =>
      base ≤ stable ∧ stable < base + maxGenCountOf s
        ((s.sessions.indexOf? base).getD 0)) with
  | none => none
  | some idx =>
    match s.sessions.get? idx with
    | none => none
    | some base =>
      let g := stable - base + 1
      match findBySessionGen s idx g with
      | some c => some (clusterFinal c g)
      | none => if idx = s.localSession then some (-(g : Int)) else none

/-! ## Serialized format (§6 of the spec) -/

/-- Modelled from the spec: `currentWrittenVersion` of the persisted types
(`0.0.1`); its concrete numeric encoding is immaterial, only equality with
itself is ever used. -/
def currentWrittenVersion : Nat := 1

/-- Little-endian byte encoding of `n` in `w` bytes. -/
def toLE : Nat → Nat → List Nat
  | 0, _ => []
  | w + 1, n => n % 256 :: toLE w (n / 256)

/-- Little-endian byte decoding. -/
def fromLE : List Nat → Nat
  | [] => 0
  | b :: bs => b + 256 * fromLE bs

/-- Modelled from the spec: the serializer (§4.8, §6).  Little-endian
layout: version, clusterCapacityPolicy, hasLocalSession flag, session
table, cluster vector in `baseFinal` order, `nextFinal`, and — with a
session — the local session index and the two local counters. -/
def wasmSerialize (s : CoreState) (withSession : Bool) : List Nat :=
  toLE 4 currentWrittenVersion ++
  toLE 4 s.clusterCapacityPolicy ++
  [if withSession then 1 else 0] ++
  toLE 4 s.sessions.length ++
  (s.sessions.map (toLE 16)).flatten ++
  toLE 4 s.clusters.length ++
  (s.clusters.map fun c =>
    toLE 4 c.session ++ toLE 8 c.firstGenCount ++ toLE 4 c.capacity ++
    toLE 4 c.count ++ toLE 8 c.baseFinal).flatten ++
  toLE 8 s.nextFinal ++
  (if withSession then
    toLE 4 s.localSession ++ toLE 8 s.nextLocalGenCount ++
    toLE 8 s.lastTakenGenCount
   else [])

/-- Read `w` bytes little-endian, returning the decoded value and the
remaining bytes. -/
def readN (w : Nat) (bs : List Nat) : Option (Nat × List Nat) :=
  if w ≤ bs.length then some (fromLE (bs.take w), bs.drop w) else none

/-- Read `k` consecutive `w`-byte values. -/
def readVals (w : Nat) : Nat → List Nat → Option (List Nat × List Nat)
  | 0, bs => some ([], bs)
  | k + 1, bs => do
    let (v, bs₁) ← readN w bs
    let (vs, bs₂) ← readVals w k bs₁
    pure (v :: vs, bs₂)

/-- Read `k` consecutive serialized clusters. -/
def readClusters : Nat → List Nat → Option (List Cluster × List Nat)
  | 0, bs => some ([], bs)
  | k + 1, bs => do
    let (sess, bs₁) ← readN 4 bs
    let (first, bs₂) ← readN 8 bs₁
    let (cap, bs₃) ← readN 4 bs₂
    let (cnt, bs₄) ← readN 4 bs₃
    let (base, bs₅) ← readN 8 bs₄
    let (cs, bs₆) ← readClusters k bs₅
    pure (⟨sess, first, cap, cnt, base⟩ :: cs, bs₆)

/-- Modelled from the spec: core deserialization (§4.8, §6).  Rebuilds the
state recorded in the blob.  A blob written with a session restores the
recorded local session and counters; a blob without a session requires the
caller-provided fresh session id, which must not collide with a recorded
session (collision is a `ProtocolError`, here `none`). -/
def wasmDeserialize (bytes : List Nat) (sid : Nat) : Option CoreState := do
  let (ver, bs₁) ← readN 4 bytes
  if ver ≠ currentWrittenVersion then none
  else
    let (policy, bs₂) ← readN 4 bs₁
    let (hasLocal, bs₃) ← readN 1 bs₂
    let (sessionCount, bs₄) ← readN 4 bs₃
    let (sessions, bs₅) ← readVals 16 sessionCount bs₄
    let (clusterCount, bs₆) ← readN 4 bs₅
    let (clusters, bs₇) ← readClusters clusterCount bs₆
    let (nextFinal, bs₈) ← readN 8 bs₇
    if hasLocal = 1 then
      let (localIdx, bs₉) ← readN 4 bs₈
      let (nextGen, bs₁₀) ← readN 8 bs₉
      let (lastTaken, _) ← readN 8 bs₁₀
      pure ⟨sessions, localIdx, nextGen, lastTaken, policy, clusters, nextFinal⟩
    else
      if sessions.contains sid then none
      else pure ⟨sessions ++ [sid], sessions.length, 0, 0, policy, clusters,
                 nextFinal⟩

/-! ## The TypeScript adapter (`IdCompressor`, embedded from the source) -/

/-- The `ids` payload of an `IdCreationRange`: `firstGenCount`,
`lastGenCount` and the (unsupported) `overrides` field. -/
structure RangeIds where
  firstGenCount : Nat
  lastGenCount : Nat
  overrides : Option (List (Nat × String)) := none
deriving DecidableEq, Repr

/-- The wire-visible `IdCreationRange`: a session id and an optional block
of taken GenCounts. -/
structure IdCreationRange where
  sessionId : Nat
  ids : Option RangeIds := none
deriving DecidableEq, Repr

/-- Modelled from the spec: `getIds(range)` of `util/idRange` (not under
`src/`) — extracts the optional `ids` payload of a creation range. -/
def getIds (r : IdCreationRange) : Option RangeIds := r.ids

/-- The TypeScript `SerializedIdCompressor`: the wasm byte blob plus the
written version. -/
structure SerializedIdCompressor where
  bytes : List Nat
  version : Nat
deriving DecidableEq, Repr

/-- The TypeScript `IdCompressor` object: the wrapped wasm compressor, the
caller-visible `localSessionId`, and the `sessionTokens` cache. -/
structure TSState where
  core : CoreState
  localSessionId : Nat
  sessionTokens : List (Nat × Nat) := []
deriving DecidableEq, Repr

/-- `IdCompressor.create(sessionId)`: wraps a fresh wasm compressor for the
session. -/
def tsCreate (sid : Nat) : TSState :=
  { core := coreCreate sid, localSessionId := sid, sessionTokens := [] }

/-- `IdCompressor.maxClusterSize = 2 ** 20`. -/
def maxClusterSize : Nat := 2 ^ 20

/-- `IdCompressor.setClusterCapacity`: asserts `0 < capacity ≤ 2^20`, then
hands the capacity to the core. -/
def tsSetClusterCapacity (ts : TSState) (clusterCapacity : Int) :
    Except String TSState :=
  if clusterCapacity > 0 then
    if clusterCapacity ≤ (maxClusterSize : Int) then
      .ok { ts with core := { ts.core with
              clusterCapacityPolicy := clusterCapacity.toNat } }
    else .error "Clusters must not exceed max cluster size"
  else .error "Clusters must have a positive capacity"

/-- `IdCompressor.getOrCreateSessionToken`: consult the `sessionTokens`
cache, otherwise obtain a token from the core (`get_token`) and cache it. -/
def getOrCreateSessionToken (ts : TSState) (sid : Nat) : TSState × Nat :=
  match ts.sessionTokens.lookup sid with
  | some t => (ts, t)
  | none =>
    let (t, core₂) := coreGetToken ts.core sid
    ({ ts with core := core₂, sessionTokens := ts.sessionTokens ++ [(sid, t)] },
     t)

/-- `IdCompressor.finalizeCreationRange`: a range without ids is a no-op;
a defined `overrides` field fails the assertion; otherwise the core
finalizer is called with `first` and — exactly as written in the source —
the count `first - last + 1`. -/
def tsFinalizeCreationRange (ts : TSState) (range : IdCreationRange) :
    Except String TSState :=
  match getIds range with
  | none => .ok ts
  | some ids =>
    if ids.overrides.isSome then .error "Overrides not yet supported."
    else
      let (ts₂, token) := getOrCreateSessionToken ts range.sessionId
      (coreFinalizeRange ts₂.core token ids.firstGenCount
          ((ids.firstGenCount : Int) - (ids.lastGenCount : Int) + 1)).map
        fun core₂ => { ts₂ with core := core₂ }

/-- `IdCompressor.takeNextCreationRange`: wraps the core range buffer,
translating `(first_local_gen_count, count)` into
`{ firstGenCount, lastGenCount = first + count - 1 }`. -/
def tsTakeNextCreationRange (ts : TSState) : IdCreationRange × TSState :=
  let (wasmRange, core₂) := coreTakeNextRange ts.core
  let ts₂ := { ts with core := core₂ }
  match wasmRange with
  | none => ({ sessionId := ts.localSessionId, ids := none }, ts₂)
  | some (first, count) =>
    ({ sessionId := ts.localSessionId
       ids := some { firstGenCount := first
                     lastGenCount := first + count - 1
                     overrides := none } }, ts₂)

/-- `IdCompressor.generateCompressedId(override?)`: the override argument
is ignored by the source; the core mints the next id. -/
def tsGenerateCompressedId (ts : TSState) (override : Option String) :
    Int × TSState :=
  match override with
  | _ =>
    let (id, core₂) := coreGenerateNextId ts.core
    (id, { ts with core := core₂ })

/-- `IdCompressor.idOrError`: a `NaN` from the wasm boundary (modelled as
`none`) becomes a thrown error carrying the core's error string. -/
def idOrError (r : Option Int) : Except String Int :=
  match r with
  | none => .error "wasm error string"
  | some v => .ok v

/-- `IdCompressor.normalizeToOpSpace`: core call wrapped in `idOrError`. -/
def tsNormalizeToOpSpace (ts : TSState) (id : Int) : Except String Int :=
  idOrError (coreNormalizeToOpSpace ts.core id)

/-- `IdCompressor.normalizeToSessionSpace`: obtain the origin session's
token (possibly interning it), call the core, wrap in `idOrError`. -/
def tsNormalizeToSessionSpace (ts : TSState) (id : Int) (originSessionId : Nat) :
    Except String Int × TSState :=
  let (ts₂, token) := getOrCreateSessionToken ts originSessionId
  (idOrError (coreNormalizeToSessionSpace ts₂.core id token), ts₂)

/-- `IdCompressor.tryDecompress`: the core result as-is (`undefined` is
`none`). -/
def tsTryDecompress (ts : TSState) (id : Int) : Option Nat :=
  coreDecompress ts.core id

/-- `IdCompressor.decompress`: `tryDecompress ?? fail("Could not
decompress.")`. -/
def tsDecompress (ts : TSState) (id : Int) : Except String Nat :=
  match tsTryDecompress ts id with
  | some v => .ok v
  | none => .error "Could not decompress."

/-- `IdCompressor.tryRecompress`: the core result as-is. -/
def tsTryRecompress (ts : TSState) (uncompressed : Nat) : Option Int :=
  coreRecompress ts.core uncompressed

/-- `IdCompressor.recompress`: `tryRecompress ?? fail("Could not
recompress.")`. -/
def tsRecompress (ts : TSState) (uncompressed : Nat) : Except String Int :=
  match tsTryRecompress ts uncompressed with
  | some v => .ok v
  | none => .error "Could not recompress."

/-- `IdCompressor.serialize`: the wasm bytes tagged with
`currentWrittenVersion`. -/
def tsSerialize (ts : TSState) (withSession : Bool) : SerializedIdCompressor :=
  { bytes := wasmSerialize ts.core withSession
    version := currentWrittenVersion }

/-- `IdCompressor.deserialize`: asserts the version, then sets the
caller-visible local session id to the provided new session id when there
is one and to a freshly generated stable id otherwise (`sessionId ??
generateStableId()`), and hands that id — not anything read from the
blob — to the wasm deserializer.  `freshRandom` stands for the value
produced by `generateStableId()`. -/
def tsDeserialize (serialized : SerializedIdCompressor)
    (sessionId : Option Nat) (freshRandom : Nat) : Except String TSState :=
  if serialized.version ≠ currentWrittenVersion then
    .error "Unknown serialized compressor version found."
  else
    let localSessionId := sessionId.getD freshRandom
    match wasmDeserialize serialized.bytes localSessionId with
    | none => .error "wasm deserialization failed"
    | some core =>
      .ok { core := core, localSessionId := localSessionId,
            sessionTokens := [] }

instance {ε α : Type} [DecidableEq ε] [DecidableEq α] :
    DecidableEq (Except ε α) := fun x y =>
  match x, y with
  | .ok a, .ok b =>
    if h : a = b then .isTrue (h ▸ rfl)
    else .isFalse fun heq => h (Except.ok.inj heq)
  | .error a, .error b =>
    if h : a = b then .isTrue (h ▸ rfl)
    else .isFalse fun heq => h (Except.error.inj heq)
  | .ok _, .error _ => .isFalse fun heq => Except.noConfusion heq
  | .error _, .ok _ => .isFalse fun heq => Except.noConfusion heq

/-! ## Concrete scenario states (spec §8, S1/S2 and variants) -/

namespace Scenario

/-- A fresh compressor for session id 7. -/
def s0 : TSState := tsCreate 7

def s1 : TSState := (tsGenerateCompressedId s0 none).2

def s2 : TSState := (tsGenerateCompressedId s1 none).2

/-- After three `generateCompressedId()` calls. -/
def s3ids : TSState := (tsGenerateCompressedId s2 none).2

/-- The creation range taken after three generates. -/
def takenRange : IdCreationRange := (tsTakeNextCreationRange s3ids).1

def afterTake : TSState := (tsTakeNextCreationRange s3ids).2

/-- After setting cluster capacity 5. -/
def withCap : TSState := (tsSetClusterCapacity afterTake 5).toOption.getD afterTake

/-- A second pipeline that mints a single id, takes it, and finalizes the
one-id range (for which the adapter's count expression happens to be
correct). -/
def oneMinted : TSState := (tsGenerateCompressedId s0 none).2

def oneRange : IdCreationRange := (tsTakeNextCreationRange oneMinted).1

def oneTaken : TSState := (tsTakeNextCreationRange oneMinted).2

def oneCap : TSState := (tsSetClusterCapacity oneTaken 5).toOption.getD oneTaken

/-- One id minted, taken and finalized into a cluster of capacity 5. -/
def oneFinal : TSState := (tsFinalizeCreationRange oneCap oneRange).toOption.getD oneCap

/-- `oneFinal` with one more (untaken) id minted. -/
def extraMinted : TSState := (tsGenerateCompressedId oneFinal none).2

end Scenario

/-! ## Well-formedness of cluster tables and driver for operation sequences -/

/-- Adjacent clusters in final-space order leave no overlap:
`baseFinal + capacity ≤ baseFinal` of the next. -/
def chainedFinal : List Cluster → Bool
  | [] => true
  | [_] => true
  | a :: b :: rest =>
    decide (a.baseFinal + a.capacity ≤ b.baseFinal) && chainedFinal (b :: rest)

/-- Every cluster's count is within its capacity. -/
def capOK (cs : List Cluster) : Bool := cs.all fun c => c.count ≤ c.capacity

/-- Every cluster starts at a 1-based GenCount. -/
def firstGenOK (cs : List Cluster) : Bool := cs.all fun c => 1 ≤ c.firstGenCount

/-- An operation of the determinism experiment: the claim feeds two
compressors the same `setClusterCapacity` / `finalizeCreationRange`
sequence. -/
inductive DriveOp where
  | setCap (n : Int)
  | finalize (r : IdCreationRange)
deriving DecidableEq, Repr

/-- Apply one driven operation; a thrown assertion leaves the compressor
object unchanged. -/
def applyDriveOp (ts : TSState) : DriveOp → TSState
  | .setCap n => (tsSetClusterCapacity ts n).toOption.getD ts
  | .finalize r => (tsFinalizeCreationRange ts r).toOption.getD ts

/-- Construct a compressor for `sid` and feed it the operation sequence. -/
def driveOps (sid : Nat) (ops : List DriveOp) : TSState :=
  ops.foldl applyDriveOp (tsCreate sid)

/-- The round trip of the C2 claim:
`normalizeToSessionSpace(normalizeToOpSpace(x), localSessionId)`. -/
def roundTrip (ts : TSState) (x : Int) : Except String Int :=
  (tsNormalizeToOpSpace ts x).bind fun y =>
    (tsNormalizeToSessionSpace ts y ts.localSessionId).1

/-! ## Helper lemmas on cluster lookup -/

theorem lastLE_mem {key : Cluster → Nat} {v : Nat} {cs : List Cluster}
    {c : Cluster} (h : lastLE key v cs = some c) : c ∈ cs ∧ key c ≤ v := by
  induction cs with
  | nil => simp [lastLE] at h
  | cons a rest ih =>
    rw [lastLE] at h
    cases hr : lastLE key v rest with
    | some c₂ =>
      rw [hr] at h
      obtain ⟨hm, hk⟩ := ih (hr.trans h)
      exact ⟨List.mem_cons_of_mem _ hm, hk⟩
    | none =>
      rw [hr] at h
      by_cases hk : key a ≤ v
      · simp [hk] at h
        exact ⟨by simp [h], h ▸ hk⟩
      · simp [hk] at h

theorem lastLE_eq_none {key : Cluster → Nat} {v : Nat} {cs : List Cluster}
    (h : ∀ c ∈ cs, v < key c) : lastLE key v cs = none := by
  induction cs with
  | nil => rfl
  | cons a rest ih =>
    rw [lastLE, ih fun c hc => h c (List.mem_cons_of_mem _ hc)]
    simp [Nat.not_le.mpr (h a (List.mem_cons_self _ _))]

theorem chainedFinal_tail {a : Cluster} {cs : List Cluster}
    (h : chainedFinal (a :: cs) = true) : chainedFinal cs = true := by
  cases cs with
  | nil => rfl
  | cons b rest =>
    rw [chainedFinal, Bool.and_eq_true] at h
    exact h.2

theorem chainedFinal_head {a : Cluster} {cs : List Cluster}
    (h : chainedFinal (a :: cs) = true) :
    ∀ b ∈ cs, a.baseFinal + a.capacity ≤ b.baseFinal := by
  induction cs generalizing a with
  | nil => intro b hb; simp at hb
  | cons b rest ih =>
    rw [chainedFinal, Bool.and_eq_true, decide_eq_true_eq] at h
    intro x hx
    rcases List.mem_cons.mp hx with hxb | hxr
    · exact hxb ▸ h.1
    · exact le_trans (le_trans h.1 (Nat.le_add_right _ _)) (ih h.2 x hxr)

/-- In a chained cluster table, the spec's `findByFinal` search finds
exactly the cluster covering a final id. -/
theorem lastLE_baseFinal_eq {cs : List Cluster} {f : Nat}
    (hch : chainedFinal cs = true) (hcap : capOK cs = true) {c : Cluster}
    (hm : c ∈ cs) (hl : c.baseFinal ≤ f) (hr : f < c.baseFinal + c.count) :
    lastLE (fun c => c.baseFinal) f cs = some c := by
  induction cs with
  | nil => simp at hm
  | cons a rest ih =>
    rcases List.mem_cons.mp hm with hca | hcr
    · subst hca
      have hcnt : c.count ≤ c.capacity := by
        rw [capOK, List.all_eq_true] at hcap
        exact decide_eq_true_eq.mp (hcap c (List.mem_cons_self _ _))
      have hnone : lastLE (fun c => c.baseFinal) f rest = none := by
        refine lastLE_eq_none fun b hb => ?_
        have := chainedFinal_head hch b hb
        omega
      rw [lastLE, hnone]
      simp [hl]
    · have hch₂ := chainedFinal_tail hch
      have hcap₂ : capOK rest = true := by
        rw [capOK, List.all_eq_true] at hcap ⊢
        exact fun b hb => hcap b (List.mem_cons_of_mem _ hb)
      rw [lastLE, ih hch₂ hcap₂ hcr]

/-- `findByFinal` succeeds (with the covering cluster) on any final id
covered by some cluster of a chained table. -/
theorem findByFinal_covers {s : CoreState} {f : Nat}
    (hch : chainedFinal s.clusters = true) (hcap : capOK s.clusters = true)
    {c : Cluster} (hm : c ∈ s.clusters) (hl : c.baseFinal ≤ f)
    (hr : f < c.baseFinal + c.count) : findByFinal s f = some c := by
  rw [findByFinal, lastLE_baseFinal_eq hch hcap hm hl hr]
  simp [hr]

/-- Unpack a successful `findBySessionGen`: the cluster belongs to the
session, lies in the table, and covers the GenCount. -/
theorem findBySessionGen_some {s : CoreState} {idx g : Nat} {c : Cluster}
    (h : findBySessionGen s idx g = some c) :
    c ∈ s.clusters ∧ c.session = idx ∧ c.firstGenCount ≤ g ∧
      g < c.firstGenCount + c.count := by
  rw [findBySessionGen] at h
  cases hl : lastLE (fun c => c.firstGenCount) g (sessionClusters s idx) with
  | none => rw [hl] at h; simp at h
  | some c₂ =>
    rw [hl] at h
    obtain ⟨hm, hk⟩ := lastLE_mem hl
    rw [sessionClusters, List.mem_filter] at hm
    by_cases hcov : g < c₂.firstGenCount + c₂.count
    · simp [hcov] at h
      subst h
      exact ⟨hm.1, by simpa using hm.2, hk, hcov⟩
    · simp [hcov] at h

/-- Resolving the local session through `getOrCreateSessionToken` yields
the core's local session index without touching the core (the local
session is interned at construction); under these two facts — which hold
both on a cache hit and on a cache miss — the first component of
`tsNormalizeToSessionSpace` at the local session is the wrapped core
call. -/
theorem tsNormalizeToSessionSpace_fst (ts : TSState) (y : Int)
    (htok : (getOrCreateSessionToken ts ts.localSessionId).2 =
      ts.core.localSession)
    (hcore : (getOrCreateSessionToken ts ts.localSessionId).1.core =
      ts.core) :
    (tsNormalizeToSessionSpace ts y ts.localSessionId).1 =
      idOrError (coreNormalizeToSessionSpace ts.core y
        ts.core.localSession) := by
  rw [tsNormalizeToSessionSpace]
  cases hp : getOrCreateSessionToken ts ts.localSessionId with
  | mk a b =>
    have h1 : a.core = ts.core := by rw [hp] at hcore; exact hcore
    have h2 : b = ts.core.localSession := by rw [hp] at htok; exact htok
    show idOrError (coreNormalizeToSessionSpace a.core y b) = _
    rw [h1, h2]

/-! ## Claim theorems -/

/-- Any multi-id range makes the adapter hand the core a nonpositive count:
the source computes `first - last + 1` instead of `last - first + 1`. -/
theorem finalize_range_count_negative (ts : TSState) (sid f l : Nat)
    (h : f < l) :
    tsFinalizeCreationRange ts
      { sessionId := sid, ids := some ⟨f, l, none⟩ } =
      .error "ProtocolError: range count must be positive" := by
  rw [tsFinalizeCreationRange]
  simp only [getIds, Option.isSome_none, Bool.false_eq_true, if_false]
  rw [coreFinalizeRange, if_pos (by omega : (f : Int) - (l : Int) + 1 < 1)]
  rfl

/-- C1: after a fresh compressor generates three ids, the taken range is
`{firstGenCount 1, lastGenCount 3}`; feeding it back with cluster capacity
5 is claimed to finalize 3 ids and make the next `generateCompressedId()`
return final id 3.  The source instead hands the core the count
`first - last + 1 = -1`, so finalization fails and the next generate still
returns the local id `-4`. -/
theorem c1_finalize_count_bug :
    Scenario.takenRange =
      { sessionId := 7, ids := some ⟨1, 3, none⟩ } ∧
    tsFinalizeCreationRange Scenario.withCap Scenario.takenRange =
      .error "ProtocolError: range count must be positive" ∧
    (tsGenerateCompressedId Scenario.withCap none).1 = -4 := by
  refine ⟨by decide, ?_, by decide⟩
  exact finalize_range_count_negative _ 7 1 3 (by omega)

/-- C2 (counterexample): the compressor that minted `-1`, took the range
and finalized it maps `-1` to final id `0` in op space, and mapping `0`
back to session space yields `0`, not the minted `-1`. -/
theorem c2_roundtrip_counterexample :
    (tsGenerateCompressedId Scenario.s0 none).1 = -1 ∧
    roundTrip Scenario.oneFinal (-1) = .ok 0 ∧
    (Except.ok (0 : Int) : Except String Int) ≠ .ok (-1) := by
  refine ⟨by decide, by decide, by decide⟩

/-- C3: resuming from a `withSession=true` blob is claimed to reproduce the
original compressor's observable behavior.  The adapter's
ongoing-session `deserialize` overload instead sets the caller-visible
`localSessionId` to a freshly generated stable id (here 99): the wasm
state is restored exactly, yet `takeNextCreationRange` on the resumed
compressor stamps its ranges with 99 while the original stamps them
with the session id 7. -/
theorem c3_deserialize_session_bug :
    Scenario.extraMinted.localSessionId = 7 ∧
    tsDeserialize (tsSerialize Scenario.extraMinted true) none 99 =
      .ok { core := Scenario.extraMinted.core, localSessionId := 99,
            sessionTokens := [] } ∧
    (tsTakeNextCreationRange Scenario.extraMinted).1.sessionId = 7 ∧
    (tsTakeNextCreationRange
        { core := Scenario.extraMinted.core, localSessionId := 99,
          sessionTokens := [] }).1.sessionId = 99 := by
  refine ⟨by decide, by decide, by decide, by decide⟩

/-- C6 (counterexample): a creation range that carries no ids does not
fail: `finalizeCreationRange` returns normally on it, with the compressor
unchanged. -/
theorem c6_no_ids_counterexample :
    tsFinalizeCreationRange Scenario.withCap { sessionId := 7, ids := none } =
      .ok Scenario.withCap := by
  decide

/-- C6 (amended): for every compressor and every range without an `ids`
field, `finalizeCreationRange` is a no-op — it returns normally, leaves the
state unchanged, and never reaches the core finalizer. -/
theorem c6_no_ids_amended (ts : TSState) (sid : Nat) :
    tsFinalizeCreationRange ts { sessionId := sid, ids := none } = .ok ts :=
  rfl

/-- C2 (amended): on a well-formed compressor the normalization round trip
returns the id's canonical session-space form.  It returns `x` itself when
`x` is a known final id or a still-unfinalized local id; when `x` is a
local id whose GenCount has been finalized into cluster `c`, it returns the
corresponding final id — a different integer denoting the same stable id
(the two decompress identically). -/
theorem c2_roundtrip_amended (ts : TSState) (x : Int)
    (hch : chainedFinal ts.core.clusters = true)
    (hcap : capOK ts.core.clusters = true)
    (hfg : firstGenOK ts.core.clusters = true)
    (htok : (getOrCreateSessionToken ts ts.localSessionId).2 =
      ts.core.localSession)
    (hcore : (getOrCreateSessionToken ts ts.localSessionId).1.core =
      ts.core) :
    (0 ≤ x → (∃ c ∈ ts.core.clusters,
        c.baseFinal ≤ x.toNat ∧ x.toNat < c.baseFinal + c.count) →
      roundTrip ts x = .ok x) ∧
    (x < 0 →
      findBySessionGen ts.core ts.core.localSession (-x).toNat = none →
      roundTrip ts x = .ok x) ∧
    (∀ c, x < 0 →
      findBySessionGen ts.core ts.core.localSession (-x).toNat = some c →
      roundTrip ts x = .ok (clusterFinal c (-x).toNat) ∧
      coreDecompress ts.core (clusterFinal c (-x).toNat) =
        coreDecompress ts.core x) := by
  refine ⟨?_, ?_, ?_⟩
  · intro hx hex
    obtain ⟨c, hm, hl, hr⟩ := hex
    have hfbf : findByFinal ts.core x.toNat = some c :=
      findByFinal_covers hch hcap hm hl hr
    have e1 : coreNormalizeToOpSpace ts.core x = some x := by
      rw [coreNormalizeToOpSpace, if_pos hx]
    have e2 : coreNormalizeToSessionSpace ts.core x ts.core.localSession =
        some x := by
      rw [coreNormalizeToSessionSpace, if_pos hx, hfbf]
    rw [roundTrip, tsNormalizeToOpSpace, e1]
    show (tsNormalizeToSessionSpace ts x ts.localSessionId).1 = .ok x
    rw [tsNormalizeToSessionSpace_fst ts x htok hcore, e2]
    rfl
  · intro hx hfind
    have hx' : ¬ 0 ≤ x := by omega
    have e1 : coreNormalizeToOpSpace ts.core x = some x := by
      simp [coreNormalizeToOpSpace, hx', hfind]
    have e2 : coreNormalizeToSessionSpace ts.core x ts.core.localSession =
        some x := by
      simp [coreNormalizeToSessionSpace, hx', hfind]
    rw [roundTrip, tsNormalizeToOpSpace, e1]
    show (tsNormalizeToSessionSpace ts x ts.localSessionId).1 = .ok x
    rw [tsNormalizeToSessionSpace_fst ts x htok hcore, e2]
    rfl
  · intro c hx hfind
    have hx' : ¬ 0 ≤ x := by omega
    obtain ⟨hm, hsess, hfle, hglt⟩ := findBySessionGen_some hfind
    have hc1 : 1 ≤ c.firstGenCount := by
      rw [firstGenOK, List.all_eq_true] at hfg
      exact decide_eq_true_eq.mp (hfg c hm)
    have hfnat : clusterFinal c (-x).toNat =
        ((c.baseFinal + ((-x).toNat - c.firstGenCount) : Nat) : Int) := by
      rw [clusterFinal, Nat.cast_add]
    have hf0 : 0 ≤ clusterFinal c (-x).toNat := by
      rw [hfnat]; exact Int.natCast_nonneg _
    have htoNat : (clusterFinal c (-x).toNat).toNat =
        c.baseFinal + ((-x).toNat - c.firstGenCount) := by
      rw [hfnat]; omega
    have hfbf : findByFinal ts.core (clusterFinal c (-x).toNat).toNat =
        some c := by
      rw [htoNat]
      exact findByFinal_covers hch hcap hm (Nat.le_add_right _ _) (by omega)
    have e1 : coreNormalizeToOpSpace ts.core x =
        some (clusterFinal c (-x).toNat) := by
      simp [coreNormalizeToOpSpace, hx', hfind]
    have e2 : coreNormalizeToSessionSpace ts.core
        (clusterFinal c (-x).toNat) ts.core.localSession =
        some (clusterFinal c (-x).toNat) := by
      rw [coreNormalizeToSessionSpace, if_pos hf0, hfbf]
    constructor
    · rw [roundTrip, tsNormalizeToOpSpace, e1]
      show (tsNormalizeToSessionSpace ts (clusterFinal c (-x).toNat)
        ts.localSessionId).1 = .ok (clusterFinal c (-x).toNat)
      rw [tsNormalizeToSessionSpace_fst ts (clusterFinal c (-x).toNat)
        htok hcore, e2]
      rfl
    · rw [coreDecompress, if_neg (by omega), hfbf, coreDecompress,
        if_pos hx]
      show Option.map (fun base => base + (c.firstGenCount - 1 +
          ((clusterFinal c (-x).toNat).toNat - c.baseFinal)))
        (ts.core.sessions.get? c.session) =
        Option.map (fun base => base + ((-x).toNat - 1))
        (ts.core.sessions.get? ts.core.localSession)
      rw [hsess]
      cases hget : ts.core.sessions.get? ts.core.localSession with
      | none => rfl
      | some base =>
        show some (base + (c.firstGenCount - 1 +
          ((clusterFinal c (-x).toNat).toNat - c.baseFinal))) =
          some (base + ((-x).toNat - 1))
        rw [htoNat]
        congr 1
        omega

theorem c2_roundtrip_amended_witness :
    roundTrip Scenario.s3ids (-2) = .ok (-2) :=
  (c2_roundtrip_amended Scenario.s3ids (-2) (by decide) (by decide)
    (by decide) (by decide) (by decide)).2.1 (by decide) (by decide)

/-- C4: two compressors constructed with the same session id and fed the
identical sequence of `setClusterCapacity` / `finalizeCreationRange` calls
are byte-identical under `serialize(true)`: every driven operation is a
deterministic function of the state, so equal histories force equal
serialized blobs (and in particular bit-identical cluster tables). -/
theorem c4_determinism (sid : Nat) (ops : List DriveOp) (t₁ t₂ : TSState)
    (h₁ : t₁ = driveOps sid ops) (h₂ : t₂ = driveOps sid ops) :
    tsSerialize t₁ true = tsSerialize t₂ true ∧
    t₁.core.clusters = t₂.core.clusters := by
  subst h₁; subst h₂; exact ⟨rfl, rfl⟩

theorem c4_determinism_witness :
    tsSerialize (driveOps 7 [DriveOp.setCap 5,
      DriveOp.finalize ⟨7, some ⟨1, 1, none⟩⟩]) true =
    tsSerialize (driveOps 7 [DriveOp.setCap 5,
      DriveOp.finalize ⟨7, some ⟨1, 1, none⟩⟩]) true :=
  (c4_determinism 7 _ _ _ rfl rfl).1

/-- C5: `takeNextCreationRange` stamps the local session id on the range;
the range has no ids exactly when every locally generated id has already
been taken; otherwise `lastGenCount = firstGenCount + n - 1` where
`n ≥ 1` is the number of not-yet-taken local ids; and the buffer is
drained, so an immediately following call returns a range with no ids. -/
theorem c5_take_next_creation_range (ts : TSState)
    (h : ts.core.lastTakenGenCount ≤ ts.core.nextLocalGenCount) :
    (tsTakeNextCreationRange ts).1.sessionId = ts.localSessionId ∧
    ((tsTakeNextCreationRange ts).1.ids = none ↔
      ts.core.lastTakenGenCount = ts.core.nextLocalGenCount) ∧
    (∀ ids, (tsTakeNextCreationRange ts).1.ids = some ids →
      1 ≤ ts.core.nextLocalGenCount - ts.core.lastTakenGenCount ∧
      ids.firstGenCount = ts.core.lastTakenGenCount + 1 ∧
      ids.lastGenCount = ids.firstGenCount +
        (ts.core.nextLocalGenCount - ts.core.lastTakenGenCount) - 1) ∧
    (tsTakeNextCreationRange (tsTakeNextCreationRange ts).2).1.ids = none := by
  rw [tsTakeNextCreationRange, coreTakeNextRange]
  by_cases hemp : ts.core.nextLocalGenCount ≤ ts.core.lastTakenGenCount
  · rw [if_pos hemp]
    refine ⟨rfl, by simpa using by omega, by simp, ?_⟩
    rw [tsTakeNextCreationRange, coreTakeNextRange, if_pos hemp]
  · rw [if_neg hemp]
    refine ⟨rfl, by simpa using by omega, ?_, ?_⟩
    · intro ids hids
      simp only [Option.some.injEq] at hids
      subst hids
      exact ⟨by omega, rfl, rfl⟩
    · rw [tsTakeNextCreationRange, coreTakeNextRange]
      simp

theorem c5_take_next_creation_range_witness :
    (tsTakeNextCreationRange Scenario.s3ids).1.sessionId =
      Scenario.s3ids.localSessionId :=
  (c5_take_next_creation_range Scenario.s3ids (by decide)).1

/-- C7: failures are surfaced, never encoded as numeric sentinels:
`decompress` returns a stable id exactly when `tryDecompress` does (and
the same one) and raises otherwise; `recompress`/`tryRecompress` likewise;
and the two normalization wrappers return a value exactly when the core
reports success, raising an error — not a sentinel number — when the core
reports failure (`NaN`, modelled as `none`). -/
theorem c7_errors_surfaced (ts : TSState) (id : Int) (stable : Nat)
    (sid : Nat) :
    (∀ v, tsDecompress ts id = .ok v ↔ tsTryDecompress ts id = some v) ∧
    (tsDecompress ts id = .error "Could not decompress." ↔
      tsTryDecompress ts id = none) ∧
    (∀ v, tsRecompress ts stable = .ok v ↔
      tsTryRecompress ts stable = some v) ∧
    (tsRecompress ts stable = .error "Could not recompress." ↔
      tsTryRecompress ts stable = none) ∧
    (∀ v, tsNormalizeToOpSpace ts id = .ok v ↔
      coreNormalizeToOpSpace ts.core id = some v) ∧
    (tsNormalizeToOpSpace ts id = .error "wasm error string" ↔
      coreNormalizeToOpSpace ts.core id = none) ∧
    (∀ v, (tsNormalizeToSessionSpace ts id sid).1 = .ok v ↔
      coreNormalizeToSessionSpace (getOrCreateSessionToken ts sid).1.core id
        (getOrCreateSessionToken ts sid).2 = some v) ∧
    ((tsNormalizeToSessionSpace ts id sid).1 = .error "wasm error string" ↔
      coreNormalizeToSessionSpace (getOrCreateSessionToken ts sid).1.core id
        (getOrCreateSessionToken ts sid).2 = none) := by
  refine ⟨?_, ?_, ?_, ?_, ?_, ?_, ?_, ?_⟩
  · intro v
    rw [tsDecompress]
    cases tsTryDecompress ts id <;> simp
  · rw [tsDecompress]
    cases tsTryDecompress ts id <;> simp
  · intro v
    rw [tsRecompress]
    cases tsTryRecompress ts stable <;> simp
  · rw [tsRecompress]
    cases tsTryRecompress ts stable <;> simp
  · intro v
    rw [tsNormalizeToOpSpace]
    cases coreNormalizeToOpSpace ts.core id <;> simp [idOrError]
  · rw [tsNormalizeToOpSpace]
    cases coreNormalizeToOpSpace ts.core id <;> simp [idOrError]
  · intro v
    rw [tsNormalizeToSessionSpace]
    cases hp : getOrCreateSessionToken ts sid with
    | mk a b =>
      show idOrError (coreNormalizeToSessionSpace a.core id b) = .ok v ↔
        coreNormalizeToSessionSpace a.core id b = some v
      cases coreNormalizeToSessionSpace a.core id b <;> simp [idOrError]
  · rw [tsNormalizeToSessionSpace]
    cases hp : getOrCreateSessionToken ts sid with
    | mk a b =>
      show idOrError (coreNormalizeToSessionSpace a.core id b) =
          .error "wasm error string" ↔
        coreNormalizeToSessionSpace a.core id b = none
      cases coreNormalizeToSessionSpace a.core id b <;> simp [idOrError]

/-- C8: overrides are unsupported — `generateCompressedId`'s override
argument has no effect on the returned id or the resulting state, and
`finalizeCreationRange` fails for every range whose ids carry a defined
`overrides` field. -/
theorem c8_overrides_unsupported :
    (∀ ts o₁ o₂, tsGenerateCompressedId ts o₁ = tsGenerateCompressedId ts o₂) ∧
    (∀ ts r ids, r.ids = some ids → ids.overrides.isSome →
      tsFinalizeCreationRange ts r = .error "Overrides not yet supported.") := by
  constructor
  · intro ts o₁ o₂
    rfl
  · intro ts r ids hids hov
    rw [tsFinalizeCreationRange, getIds, hids]
    simp [hov]

theorem c8_overrides_unsupported_witness :
    tsFinalizeCreationRange (tsCreate 7)
      { sessionId := 7, ids := some ⟨1, 1, some []⟩ } =
      .error "Overrides not yet supported." :=
  c8_overrides_unsupported.2 (tsCreate 7) _ ⟨1, 1, some []⟩ rfl (by decide)

/-- C9: `setClusterCapacity(n)` succeeds for every `1 ≤ n ≤ 2^20`,
recording the new policy, and throws for `n < 1` (positive-capacity
assertion) and for `n > 2^20` (max-cluster-size assertion); the assertions
precede the core call, so a failing call changes nothing. -/
theorem c9_set_cluster_capacity (ts : TSState) (n : Int) :
    (1 ≤ n → n ≤ 2 ^ 20 → tsSetClusterCapacity ts n =
      .ok { ts with core := { ts.core with
              clusterCapacityPolicy := n.toNat } }) ∧
    (n < 1 → tsSetClusterCapacity ts n =
      .error "Clusters must have a positive capacity") ∧
    (2 ^ 20 < n → tsSetClusterCapacity ts n =
      .error "Clusters must not exceed max cluster size") := by
  refine ⟨?_, ?_, ?_⟩
  · intro h1 h2
    rw [tsSetClusterCapacity, if_pos (by omega),
      if_pos (by rw [maxClusterSize]; push_cast; omega)]
  · intro h1
    rw [tsSetClusterCapacity, if_neg (by omega)]
  · intro h1
    rw [tsSetClusterCapacity, if_pos (by omega),
      if_neg (by rw [maxClusterSize]; push_cast; omega)]

theorem c9_set_cluster_capacity_witness :
    tsSetClusterCapacity (tsCreate 7) 0 =
      .error "Clusters must have a positive capacity" :=
  (c9_set_cluster_capacity (tsCreate 7) 0).2.1 (by decide)

/-- C10: the with-ongoing-session `deserialize` overload (no explicit new
session id) sets the resulting compressor's caller-visible
`localSessionId` to the freshly generated stable id, for every blob —
nothing recorded in the serialized bytes is consulted for it. -/
theorem c10_deserialize_fresh_session (bytes : List Nat) (fresh : Nat)
    (c : TSState)
    (h : tsDeserialize ⟨bytes, currentWrittenVersion⟩ none fresh = .ok c) :
    c.localSessionId = fresh := by
  rw [tsDeserialize] at h
  simp only [if_neg (by simp : ¬ currentWrittenVersion ≠ currentWrittenVersion),
    Option.getD_none] at h
  cases hw : wasmDeserialize bytes fresh with
  | none => rw [hw] at h; exact absurd h (by simp)
  | some core =>
    rw [hw] at h
    cases h
    rfl

theorem c10_deserialize_fresh_session_witness :
    (TSState.mk Scenario.extraMinted.core 99 []).localSessionId = 99 :=
  c10_deserialize_fresh_session
    (tsSerialize Scenario.extraMinted true).bytes 99 _ (by decide)
